import Mathlib

/-!
# enet_lwip.c : startup, identity provisioning and tick handling

A shallow embedding of `src/enet_lwip.c`.  The program is one straight-line
`main` that calls `setupLwIP` and then spins in an empty loop, plus the
SysTick interrupt handler.  Both functions contain a `while(1)` loop with an
empty body, so the program is modelled as a small-step machine over program
points: a run that is stuck in one of the loops is a run whose state no longer
changes.  Calls into the driver library, the ROM and lwIP (none of which is in
the source file) are recorded, in order, in a trace.
-/

namespace EnetLwip

/-! ## Compile-time constants and tables -/

/-- The tick frequency: `#define SYSTICKHZ 100`. -/
def SYSTICKHZ : Nat := 100

/-- The tick length in milliseconds: `#define SYSTICKMS (1000 / SYSTICKHZ)`. -/
def SYSTICKMS : Nat := 1000 / SYSTICKHZ

/-- The priority byte of the tick: `#define SYSTICK_INT_PRIORITY 0x80`. -/
def SYSTICK_INT_PRIORITY : Nat := 0x80

/-- The priority byte of the Ethernet MAC: `#define ETHERNET_INT_PRIORITY 0xC0`. -/
def ETHERNET_INT_PRIORITY : Nat := 0xC0

/-- The table `const int32_t g_ppi32CirclePos[][2]`. -/
def g_ppi32CirclePos : List (Int × Int) :=
  [(12, 0), (8, -9), (0, -12), (-8, -9), (-12, 0), (-8, 9), (0, 12), (8, 9)]

/-- The table `const uint32_t g_pui32CircleColor[]`. -/
def g_pui32CircleColor : List Nat :=
  [0x111111, 0x333333, 0x555555, 0x777777, 0x999999, 0xbbbbbb, 0xdddddd, 0xffffff]

/-- The rule in the comment above the priority definitions: only the top 3 bits
of the priority byte are significant. -/
def priorityLevel (p : Nat) : Nat := (p % 256) >>> 5

/-- The rule in the same comment: lower values indicate higher priority. -/
def higherPriority (p q : Nat) : Prop := priorityLevel p < priorityLevel q

instance (p q : Nat) : Decidable (higherPriority p q) := by
  unfold higherPriority; infer_instance

/-! ## What the source takes from headers and from the hardware -/

/-- Modelled from the spec: the acquisition-mode enumeration of `utils/lwiplib.h`,
which is not in the source tree.  The spec lists the three modes: static
assignment, negotiated lease, negotiated lease with local-link fallback. -/
inductive AcquisitionMode where
  | staticAssignment
  | negotiatedLease
  | negotiatedLeaseWithFallback
  deriving DecidableEq, Repr

/-- Modelled from the spec: the enumerator `IPADDR_USE_STATIC` of `utils/lwiplib.h`
(not in the source tree) selects static assignment. -/
def IPADDR_USE_STATIC : AcquisitionMode := AcquisitionMode.staticAssignment

/-- A mode obtains the address by DHCP when it is one of the two lease modes. -/
def AcquisitionMode.usesDHCP : AcquisitionMode → Bool
  | .staticAssignment => false
  | .negotiatedLease => true
  | .negotiatedLeaseWithFallback => true

/-- The board: the header constants the source names but does not define, and the
values the hardware returns to it.  `clockConfig` stands for
`SYSCTL_XTAL_25MHZ | SYSCTL_OSC_MAIN | SYSCTL_USE_PLL | SYSCTL_CFG_VCO_480`;
`sysClock` is what `MAP_SysCtlClockFreqSet` returns; `user0` and `user1` are
what `ROM_FlashUserGet` stores in its two out-parameters.  The three hardware
values are `uint32_t` in the source; nothing below computes with them in a way
that could overflow, so they are kept as natural numbers. -/
structure Board where
  clockConfig : Nat
  INT_EMAC0 : Nat
  FAULT_SYSTICK : Nat
  sysClock : Nat
  user0 : Nat
  user1 : Nat
  deriving DecidableEq, Repr

/-- The test of `setupLwIP`: either stored word is `0xffffffff`. -/
def Board.unprogrammed (b : Board) : Prop :=
  b.user0 = 0xffffffff ∨ b.user1 = 0xffffffff

instance (b : Board) : Decidable b.unprogrammed := by
  unfold Board.unprogrammed; infer_instance

/-! ## Calls leaving the source file -/

/-- The calls the source makes into code outside the file, with their arguments.
The MAC argument of `lwIPInit` is the whole local array `pui8MACArray[8]`;
an element that was never assigned is `none`. -/
inductive Call where
  | SysCtlClockFreqSet (config freq : Nat)
  | SysTickPeriodSet (period : Nat)
  | SysTickEnable
  | SysTickIntEnable
  | FlashUserGet
  | lwIPInit (clock : Nat) (mac : List (Option Nat)) (ip mask gw : Nat) (mode : AcquisitionMode)
  | IntPrioritySet (intr prio : Nat)
  | lwIPTimer (ms : Nat)
  deriving DecidableEq, Repr

/-! ## The machine -/

/-- Program points of `main` with `setupLwIP` inlined at its only call site.
The locals of `setupLwIP` live in the program point, from the statement that
assigns them on. -/
inductive PC where
  | clockFreqSet
  | sysTickPeriodSet
  | sysTickEnable
  | sysTickIntEnable
  | flashUserGet
  | checkUser (ui32User0 ui32User1 : Nat)
  | spin
  | convertMac (ui32User0 ui32User1 : Nat)
  | lwIPInit (pui8MACArray : List (Option Nat))
  | setEthPrio
  | setTickPrio
  | idle
  deriving DecidableEq, Repr

/-- The globals of the file that are plain integers, the program point and the
trace of outgoing calls. -/
structure State where
  pc : PC
  g_ui32ColorIdx : Nat
  g_ui32IPAddress : Nat
  g_ui32SysClock : Nat
  trace : List Call
  deriving DecidableEq, Repr

/-- The state at the entry of `main`: C zero-initialises the globals. -/
def State.start : State :=
  { pc := .clockFreqSet, g_ui32ColorIdx := 0, g_ui32IPAddress := 0,
    g_ui32SysClock := 0, trace := [] }

/-- The six assignments to `pui8MACArray` in `setupLwIP`; elements 6 and 7 of the
eight-element array are never assigned. -/
def convertMac (ui32User0 ui32User1 : Nat) : List (Option Nat) :=
  [some ((ui32User0 >>> 0) &&& 0xff),
   some ((ui32User0 >>> 8) &&& 0xff),
   some ((ui32User0 >>> 16) &&& 0xff),
   some ((ui32User1 >>> 0) &&& 0xff),
   some ((ui32User1 >>> 8) &&& 0xff),
   some ((ui32User1 >>> 16) &&& 0xff),
   none, none]

/-- One statement of `main` (or of the inlined `setupLwIP`).  An iteration of
either empty `while(1)` loop leaves the state as it is. -/
def step (b : Board) (s : State) : State :=
  match s.pc with
  | .clockFreqSet =>
      { s with pc := .sysTickPeriodSet, g_ui32SysClock := b.sysClock,
               trace := s.trace ++ [.SysCtlClockFreqSet b.clockConfig 120000000] }
  | .sysTickPeriodSet =>
      { s with pc := .sysTickEnable,
               trace := s.trace ++ [.SysTickPeriodSet (s.g_ui32SysClock / SYSTICKHZ)] }
  | .sysTickEnable =>
      { s with pc := .sysTickIntEnable, trace := s.trace ++ [.SysTickEnable] }
  | .sysTickIntEnable =>
      { s with pc := .flashUserGet, trace := s.trace ++ [.SysTickIntEnable] }
  | .flashUserGet =>
      { s with pc := .checkUser b.user0 b.user1, trace := s.trace ++ [.FlashUserGet] }
  | .checkUser u0 u1 =>
      if u0 = 0xffffffff ∨ u1 = 0xffffffff then { s with pc := .spin }
      else { s with pc := .convertMac u0 u1 }
  | .spin => s
  | .convertMac u0 u1 => { s with pc := .lwIPInit (convertMac u0 u1) }
  | .lwIPInit mac =>
      { s with pc := .setEthPrio,
               trace := s.trace ++
                 [.lwIPInit s.g_ui32SysClock mac 0xC0A8166F 0xFFFFFF00 0 IPADDR_USE_STATIC] }
  | .setEthPrio =>
      { s with pc := .setTickPrio,
               trace := s.trace ++ [.IntPrioritySet b.INT_EMAC0 ETHERNET_INT_PRIORITY] }
  | .setTickPrio =>
      { s with pc := .idle,
               trace := s.trace ++ [.IntPrioritySet b.FAULT_SYSTICK SYSTICK_INT_PRIORITY] }
  | .idle => s

/-- The machine run for `n` statements from `s`. -/
def run (b : Board) : Nat → State → State
  | 0, s => s
  | n + 1, s => run b n (step b s)

/-- The state `n` statements after the entry of `main`. -/
def runMain (b : Board) (n : Nat) : State := run b n State.start

/-- The interrupt handler `SysTickIntHandler`: its body is the single statement
`lwIPTimer(SYSTICKMS);`.  It runs on top of whatever statement was interrupted,
so the program point is left alone. -/
def SysTickIntHandler (s : State) : State :=
  { s with trace := s.trace ++ [.lwIPTimer SYSTICKMS] }

/-- What can happen next while the program runs: `main` executes its next
statement, or the SysTick interrupt fires and its handler runs. -/
inductive Event where
  | statement
  | tick
  deriving DecidableEq, Repr

/-- The program run along a schedule of events from `s`. -/
def exec (b : Board) : List Event → State → State
  | [], s => s
  | .statement :: es, s => exec b es (step b s)
  | .tick :: es, s => exec b es (SysTickIntHandler s)

/-- The number of tick interrupts in a schedule. -/
def ticks (es : List Event) : Nat := es.count Event.tick

/-! ## Observations on a trace -/

/-- The six-byte identity read by `lwIPInit` from the array it is handed. -/
def identityOf : Call → Option (List (Option Nat))
  | .lwIPInit _ mac _ _ _ _ => some (mac.take 6)
  | _ => none

/-- The identities handed to `lwIPInit`, one for each call, in order. -/
def identitiesHanded (t : List Call) : List (List (Option Nat)) :=
  t.filterMap identityOf

/-- The mode argument of a call to `lwIPInit`. -/
def modeOf : Call → Option AcquisitionMode
  | .lwIPInit _ _ _ _ _ mode => some mode
  | _ => none

/-- The mode arguments of the calls to `lwIPInit`, in order. -/
def modesPassed (t : List Call) : List AcquisitionMode :=
  t.filterMap modeOf

/-- The period argument of a call to `ROM_SysTickPeriodSet`. -/
def periodOf : Call → Option Nat
  | .SysTickPeriodSet p => some p
  | _ => none

/-- The periods programmed into the tick source, in order. -/
def periodsProgrammed (t : List Call) : List Nat :=
  t.filterMap periodOf

/-- The pair of arguments of a call to `ROM_IntPrioritySet`. -/
def priorityOf : Call → Option (Nat × Nat)
  | .IntPrioritySet intr prio => some (intr, prio)
  | _ => none

/-- The priority assignments made, in order. -/
def prioritiesSet (t : List Call) : List (Nat × Nat) :=
  t.filterMap priorityOf

/-- The priority byte last assigned to interrupt `intr`, if any was. -/
def assignedPriority (t : List Call) (intr : Nat) : Option Nat :=
  (((prioritiesSet t).reverse.find? (fun p => p.1 == intr)).map Prod.snd)

/-- The main program has returned from `setupLwIP`. -/
def PC.pastSetup : PC → Bool
  | .setEthPrio => true
  | .setTickPrio => true
  | .idle => true
  | _ => false

/-- The calls to `lwIPInit` in a trace. -/
def isLwIPInit : Call → Bool
  | .lwIPInit _ _ _ _ _ _ => true
  | _ => false

/-- The number of calls to `lwIPInit` in a trace. -/
def lwIPInitCalls (t : List Call) : Nat := t.countP isLwIPInit

/-- The invariant the spec puts on a hardware identity: neither of its two
three-byte halves is all ones. -/
def halvesNotAllOnes (id : List (Option Nat)) : Prop :=
  id.take 3 ≠ [some 0xff, some 0xff, some 0xff] ∧
  (id.drop 3).take 3 ≠ [some 0xff, some 0xff, some 0xff]

instance (id : List (Option Nat)) : Decidable (halvesNotAllOnes id) := by
  unfold halvesNotAllOnes; infer_instance

/-- The calls a provisioned board sees from `main`, in order. -/
def provisionedTrace (b : Board) : List Call :=
  [.SysCtlClockFreqSet b.clockConfig 120000000,
   .SysTickPeriodSet (b.sysClock / SYSTICKHZ),
   .SysTickEnable, .SysTickIntEnable, .FlashUserGet,
   .lwIPInit b.sysClock (convertMac b.user0 b.user1) 0xC0A8166F 0xFFFFFF00 0 IPADDR_USE_STATIC,
   .IntPrioritySet b.INT_EMAC0 ETHERNET_INT_PRIORITY,
   .IntPrioritySet b.FAULT_SYSTICK SYSTICK_INT_PRIORITY]

/-! ## Sample boards -/

/-- A provisioned board running at 120 MHz whose stored words are
`0x00AABBCC` and `0x00DDEEFF`. -/
def provisionedBoard : Board :=
  { clockConfig := 0xF1000640, INT_EMAC0 := 56, FAULT_SYSTICK := 15,
    sysClock := 120000000, user0 := 0x00AABBCC, user1 := 0x00DDEEFF }

/-- A board whose first stored word was never programmed. -/
def unprogrammedBoard : Board :=
  { provisionedBoard with user0 := 0xFFFFFFFF }

/-- A board whose first stored word has all ones in its low 24 bits and a zero
top byte. -/
def lowOnesBoard : Board :=
  { provisionedBoard with user0 := 0x00FFFFFF }


/-! ## Runs of the machine -/

theorem run_add (b : Board) (m n : Nat) (s : State) :
    run b (m + n) s = run b n (run b m s) := by
  induction m generalizing s with
  | zero => simp [run]
  | succ k ih => rw [Nat.succ_add]; simp [run, ih]

theorem run_of_fixed (b : Board) (s : State) (h : step b s = s) (n : Nat) :
    run b n s = s := by
  induction n with
  | zero => rfl
  | succ k ih => simp [run, h, ih]

theorem runMain_of_fixed (b : Board) (k : Nat) (h : step b (runMain b k) = runMain b k)
    (n : Nat) (hn : k ≤ n) : runMain b n = runMain b k := by
  obtain ⟨d, rfl⟩ := Nat.exists_eq_add_of_le hn
  unfold runMain at *
  rw [run_add, run_of_fixed b _ h]

theorem runMain_ten (b : Board) (h : ¬ b.unprogrammed) :
    runMain b 10 = { pc := .idle, g_ui32ColorIdx := 0, g_ui32IPAddress := 0,
                     g_ui32SysClock := b.sysClock, trace := provisionedTrace b } := by
  unfold Board.unprogrammed at h
  simp [runMain, run, step, State.start, provisionedTrace, h]

theorem runMain_six_spin (b : Board) (h : b.unprogrammed) :
    runMain b 6 = { pc := .spin, g_ui32ColorIdx := 0, g_ui32IPAddress := 0,
                    g_ui32SysClock := b.sysClock, trace := (provisionedTrace b).take 5 } := by
  unfold Board.unprogrammed at h
  simp [runMain, run, step, State.start, provisionedTrace, h]

theorem runMain_ge_ten (b : Board) (h : ¬ b.unprogrammed) (n : Nat) (hn : 10 ≤ n) :
    runMain b n = runMain b 10 := by
  apply runMain_of_fixed b 10 _ n hn
  rw [runMain_ten b h]; rfl

theorem runMain_ge_six_spin (b : Board) (h : b.unprogrammed) (n : Nat) (hn : 6 ≤ n) :
    runMain b n = runMain b 6 := by
  apply runMain_of_fixed b 6 _ n hn
  rw [runMain_six_spin b h]; rfl

/-- The first five statements of `main` do not depend on the stored words. -/
theorem runMain_le_five (b : Board) (n : Nat) (hn : n ≤ 5) :
    (runMain b n).pc.pastSetup = false ∧
    (runMain b n).trace = (provisionedTrace b).take n := by
  interval_cases n <;> simp [runMain, run, step, State.start, provisionedTrace, PC.pastSetup]

/-- No statement of `main` or `setupLwIP` assigns `g_ui32ColorIdx` or
`g_ui32IPAddress`. -/
theorem step_frame (b : Board) (s : State) :
    (step b s).g_ui32ColorIdx = s.g_ui32ColorIdx ∧
    (step b s).g_ui32IPAddress = s.g_ui32IPAddress := by
  unfold step
  split <;> try exact ⟨rfl, rfl⟩
  split <;> exact ⟨rfl, rfl⟩

theorem exec_frame (b : Board) (es : List Event) (s : State) :
    (exec b es s).g_ui32ColorIdx = s.g_ui32ColorIdx ∧
    (exec b es s).g_ui32IPAddress = s.g_ui32IPAddress := by
  induction es generalizing s with
  | nil => exact ⟨rfl, rfl⟩
  | cons e t ih =>
    cases e with
    | statement =>
      have h1 := ih (step b s)
      have h2 := step_frame b s
      exact ⟨by simp only [exec]; rw [h1.1, h2.1], by simp only [exec]; rw [h1.2, h2.2]⟩
    | tick =>
      have h1 := ih (SysTickIntHandler s)
      exact ⟨by simp only [exec]; rw [h1.1]; rfl, by simp only [exec]; rw [h1.2]; rfl⟩

/-- Once `main` is in its final loop, the only thing a schedule adds is one
`lwIPTimer(SYSTICKMS)` call for each tick. -/
theorem exec_idle (b : Board) (es : List Event) (s : State) (h : s.pc = .idle) :
    exec b es s =
      { s with trace := s.trace ++ List.replicate (ticks es) (Call.lwIPTimer SYSTICKMS) } := by
  induction es generalizing s with
  | nil => simp [exec, ticks]
  | cons e t ih =>
    cases e with
    | statement =>
      have hs : step b s = s := by simp [step, h]
      simp only [exec, hs]
      rw [ih s h]
      simp [ticks]
    | tick =>
      simp only [exec]
      rw [ih (SysTickIntHandler s) (by simpa [SysTickIntHandler] using h)]
      simp [ticks, SysTickIntHandler, List.replicate_succ]

theorem identitiesHanded_ten (b : Board) (h : ¬ b.unprogrammed) :
    identitiesHanded (runMain b 10).trace =
      [[some (b.user0 &&& 0xFF), some ((b.user0 >>> 8) &&& 0xFF),
        some ((b.user0 >>> 16) &&& 0xFF), some (b.user1 &&& 0xFF),
        some ((b.user1 >>> 8) &&& 0xFF), some ((b.user1 >>> 16) &&& 0xFF)]] := by
  rw [runMain_ten b h]
  simp [provisionedTrace, identitiesHanded, identityOf, convertMac]

/-- C1: for every pair of stored words neither of which is 0xFFFFFFFF, from the
call on, the only identity handed to lwIPInit is the low three bytes of the first
word followed by the low three bytes of the second, least significant first. -/
theorem setupLwIP_identity_bytes (b : Board) (h : ¬ b.unprogrammed) (n : Nat) (hn : 8 ≤ n) :
    identitiesHanded (runMain b n).trace =
      [[some (b.user0 &&& 0xFF), some ((b.user0 >>> 8) &&& 0xFF),
        some ((b.user0 >>> 16) &&& 0xFF), some (b.user1 &&& 0xFF),
        some ((b.user1 >>> 8) &&& 0xFF), some ((b.user1 >>> 16) &&& 0xFF)]] := by
  have hge := runMain_ge_ten b h
  unfold Board.unprogrammed at h
  rcases (by omega : n = 8 ∨ n = 9 ∨ 10 ≤ n) with rfl | rfl | h3
  · simp [runMain, run, step, State.start, h, identitiesHanded, identityOf, convertMac]
  · simp [runMain, run, step, State.start, h, identitiesHanded, identityOf, convertMac]
  · rw [hge n h3]
    exact identitiesHanded_ten b (by unfold Board.unprogrammed; exact h)

/-- Witness for C1: the stored words 0x00AABBCC and 0x00DDEEFF give the identity
CC BB AA FF EE DD. -/
theorem setupLwIP_identity_bytes_witness :
    ¬ provisionedBoard.unprogrammed ∧
    identitiesHanded (runMain provisionedBoard 8).trace =
      [[some 0xCC, some 0xBB, some 0xAA, some 0xFF, some 0xEE, some 0xDD]] :=
  ⟨by decide, setupLwIP_identity_bytes provisionedBoard (by decide) 8 (Nat.le_refl 8)⟩


/-- C2: main reaches the call of lwIPInit if and only if neither stored word is
0xFFFFFFFF.  With a sentinel word the run never leaves setupLwIP, never calls
lwIPInit and never sets a priority, and from the sixth statement on it sits in
the empty loop; otherwise setupLwIP has returned after eight statements and
from then on the trace holds exactly one call of lwIPInit. -/
theorem setupLwIP_gate (b : Board) :
    ((∃ n, 0 < lwIPInitCalls (runMain b n).trace) ↔ ¬ b.unprogrammed) ∧
    (b.unprogrammed → ∀ n,
        (runMain b n).pc.pastSetup = false ∧
        lwIPInitCalls (runMain b n).trace = 0 ∧
        prioritiesSet (runMain b n).trace = [] ∧
        (6 ≤ n → (runMain b n).pc = PC.spin)) ∧
    (¬ b.unprogrammed →
        (runMain b 8).pc = PC.setEthPrio ∧
        (∀ n, n < 8 → lwIPInitCalls (runMain b n).trace = 0) ∧
        (∀ n, 8 ≤ n → (runMain b n).pc.pastSetup = true ∧
                      lwIPInitCalls (runMain b n).trace = 1)) := by
  have hspin : b.unprogrammed → ∀ n,
        (runMain b n).pc.pastSetup = false ∧
        lwIPInitCalls (runMain b n).trace = 0 ∧
        prioritiesSet (runMain b n).trace = [] ∧
        (6 ≤ n → (runMain b n).pc = PC.spin) := by
    intro h n
    rcases Nat.lt_or_ge n 6 with hlt | hge
    · obtain ⟨h1, h2⟩ := runMain_le_five b n (by omega)
      refine ⟨h1, ?_, ?_, fun h6 => absurd h6 (by omega)⟩
      · rw [h2]; interval_cases n <;>
          simp [provisionedTrace, lwIPInitCalls, isLwIPInit]
      · rw [h2]; interval_cases n <;>
          simp [provisionedTrace, prioritiesSet, priorityOf]
    · rw [runMain_ge_six_spin b h n hge, runMain_six_spin b h]
      simp [provisionedTrace, lwIPInitCalls, isLwIPInit, prioritiesSet, priorityOf,
        PC.pastSetup]
  have hok : ¬ b.unprogrammed →
        (runMain b 8).pc = PC.setEthPrio ∧
        (∀ n, n < 8 → lwIPInitCalls (runMain b n).trace = 0) ∧
        (∀ n, 8 ≤ n → (runMain b n).pc.pastSetup = true ∧
                      lwIPInitCalls (runMain b n).trace = 1) := by
    intro h
    have h10 := runMain_ten b h
    have hge := runMain_ge_ten b h
    unfold Board.unprogrammed at h
    refine ⟨?_, ?_, ?_⟩
    · simp [runMain, run, step, State.start, h]
    · intro n hn
      interval_cases n <;>
        simp [runMain, run, step, State.start, h, lwIPInitCalls, isLwIPInit]
    · intro n hn
      rcases (by omega : n = 8 ∨ n = 9 ∨ 10 ≤ n) with rfl | rfl | h3
      · simp [runMain, run, step, State.start, h, lwIPInitCalls, isLwIPInit, PC.pastSetup]
      · simp [runMain, run, step, State.start, h, lwIPInitCalls, isLwIPInit, PC.pastSetup]
      · rw [hge n h3, h10]
        simp [provisionedTrace, lwIPInitCalls, isLwIPInit, PC.pastSetup]
  refine ⟨⟨?_, ?_⟩, hspin, hok⟩
  · rintro ⟨n, hn⟩ hun
    have := (hspin hun n).2.1
    omega
  · intro h
    exact ⟨8, by rw [((hok h).2.2 8 (Nat.le_refl 8)).2]; exact Nat.one_pos⟩

/-- Witness for C2: the board with an unprogrammed first word never calls
lwIPInit, and the provisioned board has called it exactly once after eight
statements. -/
theorem setupLwIP_gate_witness :
    (unprogrammedBoard.unprogrammed ∧
      ∀ n, (runMain unprogrammedBoard n).pc.pastSetup = false ∧
        lwIPInitCalls (runMain unprogrammedBoard n).trace = 0 ∧
        prioritiesSet (runMain unprogrammedBoard n).trace = [] ∧
        (6 ≤ n → (runMain unprogrammedBoard n).pc = PC.spin)) ∧
    (¬ provisionedBoard.unprogrammed ∧
      lwIPInitCalls (runMain provisionedBoard 8).trace = 1) :=
  ⟨⟨by decide, (setupLwIP_gate unprogrammedBoard).2.1 (by decide)⟩,
   ⟨by decide,
    (((setupLwIP_gate provisionedBoard).2.2 (by decide)).2.2 8 (Nat.le_refl 8)).2⟩⟩

/-- C3, as stated, fails: the stored words 0x00FFFFFF and 0x00DDEEFF pass the
check of setupLwIP, and bytes 0..2 of the identity handed to lwIPInit are
FF FF FF. -/
theorem lowOnes_identity_accepted :
    ¬ lowOnesBoard.unprogrammed ∧
    identitiesHanded (runMain lowOnesBoard 10).trace =
      [[some 0xFF, some 0xFF, some 0xFF, some 0xFF, some 0xEE, some 0xDD]] ∧
    (∃ id ∈ identitiesHanded (runMain lowOnesBoard 10).trace,
      id.take 3 = [some 0xFF, some 0xFF, some 0xFF] ∧ ¬ halvesNotAllOnes id) := by
  refine ⟨by decide, by decide, by decide⟩

/-- C3, amended: every identity setupLwIP accepts comes from stored words
neither of which is 0xFFFFFFFF, so a three-byte half of the identity handed to
lwIPInit is FF FF FF only when the top byte of its stored word is not 0xFF. -/
theorem accepted_identity_not_sentinel (b : Board) (h : ¬ b.unprogrammed) :
    ∃ id, identitiesHanded (runMain b 10).trace = [id] ∧
      (id.take 3 = [some 0xff, some 0xff, some 0xff] → b.user0 >>> 24 ≠ 0xff) ∧
      ((id.drop 3).take 3 = [some 0xff, some 0xff, some 0xff] → b.user1 >>> 24 ≠ 0xff) := by
  refine ⟨_, identitiesHanded_ten b h, ?_, ?_⟩
  · unfold Board.unprogrammed at h
    have h0 : b.user0 ≠ 0xffffffff := fun e => h (Or.inl e)
    have e : (0xFF : Nat) = 2 ^ 8 - 1 := by norm_num
    simp only [List.take, List.cons.injEq, Option.some.injEq, and_true]
    rw [e, Nat.and_pow_two_sub_one_eq_mod, Nat.and_pow_two_sub_one_eq_mod,
      Nat.and_pow_two_sub_one_eq_mod]
    simp only [Nat.shiftRight_eq_div_pow]
    rintro ⟨h1, h2, h3⟩
    omega
  · unfold Board.unprogrammed at h
    have h0 : b.user1 ≠ 0xffffffff := fun e => h (Or.inr e)
    have e : (0xFF : Nat) = 2 ^ 8 - 1 := by norm_num
    simp only [List.take, List.drop, List.cons.injEq, Option.some.injEq, and_true]
    rw [e, Nat.and_pow_two_sub_one_eq_mod, Nat.and_pow_two_sub_one_eq_mod,
      Nat.and_pow_two_sub_one_eq_mod]
    simp only [Nat.shiftRight_eq_div_pow]
    rintro ⟨h1, h2, h3⟩
    omega

/-- Witness for C3 amended: the board whose first word is 0x00FFFFFF is accepted;
its first half is FF FF FF and the top byte of that word is 0x00. -/
theorem accepted_identity_not_sentinel_witness :
    ¬ lowOnesBoard.unprogrammed ∧
    ∃ id, identitiesHanded (runMain lowOnesBoard 10).trace = [id] ∧
      (id.take 3 = [some 0xff, some 0xff, some 0xff] → lowOnesBoard.user0 >>> 24 ≠ 0xff) ∧
      ((id.drop 3).take 3 = [some 0xff, some 0xff, some 0xff] →
        lowOnesBoard.user1 >>> 24 ≠ 0xff) :=
  ⟨by decide, accepted_identity_not_sentinel lowOnesBoard (by decide)⟩


/-- C4 fails on the code: on the provisioned sample board the one call of lwIPInit
passes IPADDR_USE_STATIC, a mode that does not use DHCP, although the comment
above the call and the file header say DHCP is used. -/
theorem lwIPInit_mode_is_static :
    ¬ provisionedBoard.unprogrammed ∧
    modesPassed (runMain provisionedBoard 10).trace = [IPADDR_USE_STATIC] ∧
    IPADDR_USE_STATIC = AcquisitionMode.staticAssignment ∧
    IPADDR_USE_STATIC.usesDHCP = false := by
  refine ⟨by decide, by decide, rfl, rfl⟩

/-- C5: on a provisioned board main reaches its idle loop after ten statements,
and from then on the priority byte assigned to the SysTick fault is 0x80 and the
one assigned to the Ethernet MAC interrupt is 0xC0; with only the top three bits
counting and lower meaning higher, the tick has the strictly higher priority. -/
theorem tick_priority_above_ethernet (b : Board) (h : ¬ b.unprogrammed)
    (hne : b.FAULT_SYSTICK ≠ b.INT_EMAC0) :
    (runMain b 10).pc = PC.idle ∧
    (∀ n, 10 ≤ n →
      prioritiesSet (runMain b n).trace =
        [(b.INT_EMAC0, ETHERNET_INT_PRIORITY), (b.FAULT_SYSTICK, SYSTICK_INT_PRIORITY)] ∧
      assignedPriority (runMain b n).trace b.FAULT_SYSTICK = some 0x80 ∧
      assignedPriority (runMain b n).trace b.INT_EMAC0 = some 0xC0) ∧
    higherPriority SYSTICK_INT_PRIORITY ETHERNET_INT_PRIORITY ∧
    0x80 >>> 5 < 0xC0 >>> 5 := by
  have h10 := runMain_ten b h
  refine ⟨by rw [h10], ?_, by decide, by decide⟩
  intro n hn
  rw [runMain_ge_ten b h n hn, h10]
  have hb : (b.FAULT_SYSTICK == b.INT_EMAC0) = false := by simpa using hne
  simp [provisionedTrace, prioritiesSet, assignedPriority, priorityOf, List.find?,
    SYSTICK_INT_PRIORITY, ETHERNET_INT_PRIORITY, hb]

/-- Witness for C5: the provisioned sample board, with SysTick fault 15 and
Ethernet MAC interrupt 56. -/
theorem tick_priority_above_ethernet_witness :
    (¬ provisionedBoard.unprogrammed ∧
      provisionedBoard.FAULT_SYSTICK ≠ provisionedBoard.INT_EMAC0) ∧
    assignedPriority (runMain provisionedBoard 10).trace provisionedBoard.FAULT_SYSTICK
      = some 0x80 ∧
    assignedPriority (runMain provisionedBoard 10).trace provisionedBoard.INT_EMAC0
      = some 0xC0 :=
  ⟨⟨by decide, by decide⟩,
   ((tick_priority_above_ethernet provisionedBoard (by decide) (by decide)).2.1 10
      (Nat.le_refl 10)).2⟩

/-- C6: for every prior state, the tick handler appends exactly one call, namely
lwIPTimer with SYSTICKMS = 1000 / SYSTICKHZ = 10 milliseconds, to the calls made
so far, and leaves g_ui32ColorIdx, g_ui32IPAddress, g_ui32SysClock and the
interrupted program point as they were. -/
theorem SysTickIntHandler_effect (s : State) :
    (SysTickIntHandler s).trace = s.trace ++ [Call.lwIPTimer 10] ∧
    SYSTICKMS = 1000 / SYSTICKHZ ∧ SYSTICKMS = 10 ∧
    (SysTickIntHandler s).g_ui32ColorIdx = s.g_ui32ColorIdx ∧
    (SysTickIntHandler s).g_ui32IPAddress = s.g_ui32IPAddress ∧
    (SysTickIntHandler s).g_ui32SysClock = s.g_ui32SysClock ∧
    (SysTickIntHandler s).pc = s.pc :=
  ⟨rfl, rfl, rfl, rfl, rfl, rfl, rfl⟩

/-- C8 fails on the code: the supervisor the comment on g_ui32IPAddress and the
file header describe is never run.  Along every schedule of statements of main
and tick interrupts, on every board, g_ui32IPAddress keeps its initial value 0;
and on the provisioned sample board, once main is in its final loop, the state
changes only by lwIPTimer calls, one for each tick: no address is asked for,
nothing is latched (0xC0A8166F in particular is not) and nothing is displayed. -/
theorem g_ui32IPAddress_never_latched :
    (∀ (b : Board) (es : List Event), (exec b es State.start).g_ui32IPAddress = 0) ∧
    (∀ es : List Event,
      (exec provisionedBoard es (runMain provisionedBoard 10)).pc = PC.idle ∧
      (exec provisionedBoard es (runMain provisionedBoard 10)).g_ui32IPAddress = 0 ∧
      (exec provisionedBoard es (runMain provisionedBoard 10)).g_ui32IPAddress ≠ 0xC0A8166F ∧
      ∀ c ∈ (exec provisionedBoard es (runMain provisionedBoard 10)).trace,
        c ∈ provisionedTrace provisionedBoard ∨ c = Call.lwIPTimer SYSTICKMS) := by
  have h10 := runMain_ten provisionedBoard (by decide)
  have hpc : (runMain provisionedBoard 10).pc = PC.idle := by rw [h10]
  refine ⟨fun b es => (exec_frame b es State.start).2, fun es => ?_⟩
  have hip : (exec provisionedBoard es (runMain provisionedBoard 10)).g_ui32IPAddress = 0 := by
    rw [(exec_frame provisionedBoard es _).2, h10]
  refine ⟨?_, hip, by rw [hip]; decide, ?_⟩
  · rw [exec_idle provisionedBoard es _ hpc, h10]
  · rw [exec_idle provisionedBoard es _ hpc, h10]
    intro c hc
    rcases List.mem_append.mp hc with h | h
    · exact Or.inl h
    · exact Or.inr (List.eq_of_mem_replicate h)

/-- C9: when the clock frequency is a multiple of SYSTICKHZ, the only period main
programs into the tick source is clock / SYSTICKHZ cycles, with
period * SYSTICKHZ = clock, SYSTICKMS * SYSTICKHZ = 1000 and
period * 1000 = SYSTICKMS * clock; the handler reports SYSTICKMS per tick. -/
theorem tick_period_matches_SYSTICKMS (b : Board) (hdiv : SYSTICKHZ ∣ b.sysClock) :
    (∀ n, 2 ≤ n → periodsProgrammed (runMain b n).trace = [b.sysClock / SYSTICKHZ]) ∧
    b.sysClock / SYSTICKHZ * SYSTICKHZ = b.sysClock ∧
    SYSTICKHZ = 100 ∧
    SYSTICKMS * SYSTICKHZ = 1000 ∧
    b.sysClock / SYSTICKHZ * 1000 = SYSTICKMS * b.sysClock ∧
    (∀ s, (SysTickIntHandler s).trace = s.trace ++ [Call.lwIPTimer SYSTICKMS]) := by
  have hmul : b.sysClock / SYSTICKHZ * SYSTICKHZ = b.sysClock := Nat.div_mul_cancel hdiv
  refine ⟨?_, hmul, rfl, rfl, ?_, fun _ => rfl⟩
  · intro n hn
    rcases Nat.lt_or_ge n 6 with hlt | hge
    · rw [(runMain_le_five b n (by omega)).2]
      interval_cases n <;> simp [provisionedTrace, periodsProgrammed, periodOf]
    · by_cases hun : b.unprogrammed
      · rw [runMain_ge_six_spin b hun n hge, runMain_six_spin b hun]
        simp [provisionedTrace, periodsProgrammed, periodOf]
      · have h10 := runMain_ten b hun
        have hge10 := runMain_ge_ten b hun
        unfold Board.unprogrammed at hun
        rcases (by omega : n = 6 ∨ n = 7 ∨ n = 8 ∨ n = 9 ∨ 10 ≤ n) with
          rfl | rfl | rfl | rfl | h3
        · simp [runMain, run, step, State.start, hun, periodsProgrammed, periodOf]
        · simp [runMain, run, step, State.start, hun, periodsProgrammed, periodOf]
        · simp [runMain, run, step, State.start, hun, periodsProgrammed, periodOf]
        · simp [runMain, run, step, State.start, hun, periodsProgrammed, periodOf]
        · rw [hge10 n h3, h10]
          simp [provisionedTrace, periodsProgrammed, periodOf]
  · have e : SYSTICKMS = 10 := rfl
    have e2 : SYSTICKHZ = 100 := rfl
    rw [e2] at hmul
    rw [e, e2]
    omega

/-- Witness for C9: at 120,000,000 Hz the programmed period is 1,200,000 cycles. -/
theorem tick_period_matches_SYSTICKMS_witness :
    SYSTICKHZ ∣ provisionedBoard.sysClock ∧
    periodsProgrammed (runMain provisionedBoard 2).trace = [1200000] ∧
    1200000 * SYSTICKHZ = 120000000 :=
  ⟨by decide,
   (tick_period_matches_SYSTICKMS provisionedBoard (by decide)).1 2 (Nat.le_refl 2),
   by decide⟩

/-- C10: the position table and the colour table each have exactly 8 entries, so
for every natural number n a lookup at index n mod 8 succeeds in both. -/
theorem animation_tables_eight :
    g_ppi32CirclePos.length = 8 ∧ g_pui32CircleColor.length = 8 ∧
    ∀ n : Nat, (g_ppi32CirclePos[n % 8]?).isSome = true ∧
               (g_pui32CircleColor[n % 8]?).isSome = true := by
  refine ⟨rfl, rfl, fun n => ?_⟩
  have hn : n % 8 < 8 := Nat.mod_lt n (by decide)
  have h1 : n % 8 < g_ppi32CirclePos.length := hn
  have h2 : n % 8 < g_pui32CircleColor.length := hn
  simp [List.getElem?_eq_getElem h1, List.getElem?_eq_getElem h2]

end EnetLwip
